import Mathlib

/-!
Shallow embedding of `src/lib/gpu-accelerated-indicators.py` (class
`GPUIndicators`): the batched RSI, Bollinger-band and MACD/EMA kernels.

Modelling choices:
* a price matrix is a function `ℕ → ℕ → ℚ` (row index, column index);
  the `float32` cells are idealised as exact rationals, except in the
  Bollinger kernel whose standard deviation takes a square root and
  therefore lives in `ℝ`;
* a NaN cell (the "sentinel" that `cp.full(..., cp.nan)` initialises the
  outputs with) is `none : Option _`;
* a Python exception escaping a kernel (an `IndexError` from an
  out-of-bounds column write, or a `ZeroDivisionError` from
  `alpha = 1.0 / period` with `period = 0`) is `Except.error ()`;
* the batch dimension `S` plays no role in any computation (every array
  operation is per-row along `axis=1`), so row indices simply range over
  all of `ℕ`.
-/

namespace GPUIndicators

/-- Per-row first differences, `cp.diff(prices_gpu, axis=1)`:
`diff i = p (i+1) - p i` for column `i` of the difference array. -/
def diffRow (p : ℕ → ℚ) (i : ℕ) : ℚ := p (i + 1) - p i

/-- Per-row gains, `cp.where(price_diffs > 0, price_diffs, 0)`. -/
def gainRow (p : ℕ → ℚ) (i : ℕ) : ℚ := max (diffRow p i) 0

/-- Per-row losses, `cp.where(price_diffs < 0, -price_diffs, 0)`. -/
def lossRow (p : ℕ → ℚ) (i : ℕ) : ℚ := max (-diffRow p i) 0

/-- The running average kept by `rsi_batch`: value number `k` is the
average used for output column `period + k`.  Entry `0` is the seed
`cp.mean(x[:, :period])` (the slice has exactly `period` columns whenever
`T ≥ period + 1`, the only case in which the kernel returns); entry
`k + 1` is `alpha * x[:, i-1] + (1 - alpha) * avg` with `alpha = 1/period`
and `i = period + k + 1`, so it reads `x (period + k)`. -/
def wilderAvg (period : ℕ) (x : ℕ → ℚ) : ℕ → ℚ
  | 0 => (∑ j ∈ Finset.range period, x j) / (period : ℚ)
  | k + 1 => (1 / (period : ℚ)) * x (period + k) + (1 - 1 / (period : ℚ)) * wilderAvg period x k

/-- The epsilon `1e-10` added to the average loss before the division
`rs = avg_gains / (avg_losses + 1e-10)`. -/
def epsRSI : ℚ := 1 / 10000000000

/-- RSI cell value at column `period + k` of a row:
`100 - 100 / (1 + rs)` with `rs = avgGain / (avgLoss + 1e-10)`. -/
def rsiValRow (period : ℕ) (p : ℕ → ℚ) (k : ℕ) : ℚ :=
  100 - 100 / (1 + wilderAvg period (gainRow p) k / (wilderAvg period (lossRow p) k + epsRSI))

/-- One output row of `rsi_batch`.  The output starts as all-NaN
(`cp.full(..., cp.nan)`); under the guard `data_length >= period` the
kernel writes columns `period, period+1, ..., T-1`; every other cell
keeps the sentinel. -/
def rsiOutRow (T period : ℕ) (p : ℕ → ℚ) (i : ℕ) : Option ℚ :=
  if period ≤ T ∧ period ≤ i ∧ i < T then some (rsiValRow period p (i - period)) else none

/-- The `rsi_batch` kernel.  Control flow of the source: when
`data_length >= period` fails, the all-sentinel array is returned; when
it holds, the seed write `rsi_values[:, period]` raises `IndexError`
unless `period < data_length`, and `alpha = 1.0 / period` raises
`ZeroDivisionError` when `period = 0`; otherwise every row is filled
independently. -/
def rsi_batch (T period : ℕ) (price : ℕ → ℕ → ℚ) : Except Unit (ℕ → ℕ → Option ℚ) :=
  if period ≤ T ∧ ¬(1 ≤ period ∧ period + 1 ≤ T) then Except.error ()
  else Except.ok fun r => rsiOutRow T period (price r)

/-- C1: the claim asserts that whenever `T < period + 1` the RSI kernel
returns an all-sentinel matrix without error.  At `T = period` (here
`T = period = 2`, a shape `S × 2` matrix, which satisfies `T < period+1`)
the guard `data_length >= period` passes and the seed write
`rsi_values[:, period]` is out of bounds: the kernel raises `IndexError`
instead of returning the defined degenerate output. -/
theorem rsi_short_history_raises_at_T_eq_period :
    rsi_batch 2 2 (fun _ _ => (1 : ℚ)) = Except.error () ∧ (2 : ℕ) < 2 + 1 := by
  constructor
  · unfold rsi_batch
    rw [if_pos (by omega)]
  · omega

/-- Supporting fact: in the strict-shortage case `T < period` the guard
fails and the kernel does return the all-sentinel matrix without error,
so the boundary case `T = period` is the only failure of the
short-history contract. -/
theorem rsi_strict_short_history_all_sentinel (T period : ℕ) (price : ℕ → ℕ → ℚ)
    (h : T < period) :
    ∃ out, rsi_batch T period price = Except.ok out ∧ ∀ r i, out r i = none := by
  refine ⟨fun r => rsiOutRow T period (price r), ?_, ?_⟩
  · unfold rsi_batch
    rw [if_neg (by omega)]
  · intro r i
    simp only [rsiOutRow]
    rw [if_neg (by omega)]

/-- Inversion of a successful `rsi_batch` call: the returned matrix is
the row-wise `rsiOutRow` fill. -/
theorem rsi_batch_ok (T period : ℕ) (price : ℕ → ℕ → ℚ) (out : ℕ → ℕ → Option ℚ)
    (h : rsi_batch T period price = Except.ok out) :
    out = fun r => rsiOutRow T period (price r) := by
  unfold rsi_batch at h
  split at h
  · exact Except.noConfusion h
  · exact (Except.ok.inj h).symm

/-- A Wilder running average of a nonnegative series is nonnegative
(`period ≥ 1` keeps both recurrence weights nonnegative). -/
theorem wilderAvg_nonneg (period : ℕ) (x : ℕ → ℚ) (hp : 1 ≤ period)
    (hx : ∀ j, 0 ≤ x j) (k : ℕ) : 0 ≤ wilderAvg period x k := by
  have h1 : (0 : ℚ) < period := by exact_mod_cast hp
  induction k with
  | zero =>
      unfold wilderAvg
      exact div_nonneg (Finset.sum_nonneg fun j _ => hx j) (Nat.cast_nonneg period)
  | succ k ih =>
      unfold wilderAvg
      have h2 : 1 / (period : ℚ) ≤ 1 := by
        rw [div_le_one h1]
        exact_mod_cast hp
      have h3 : (0 : ℚ) ≤ 1 / (period : ℚ) := by positivity
      exact add_nonneg (mul_nonneg h3 (hx _)) (mul_nonneg (by linarith) ih)

/-- A Wilder running average of the all-zero series is zero. -/
theorem wilderAvg_eq_zero (period : ℕ) (x : ℕ → ℚ) (hx : ∀ j, x j = 0) (k : ℕ) :
    wilderAvg period x k = 0 := by
  induction k with
  | zero => unfold wilderAvg; simp [hx]
  | succ k ih => unfold wilderAvg; simp [hx, ih]

/-- Every written RSI cell lies in `[0,100]`: the running averages are
nonnegative, so `rs ≥ 0` and `100 - 100/(1+rs) ∈ [0,100)`. -/
theorem rsiValRow_mem (period : ℕ) (p : ℕ → ℚ) (hp : 1 ≤ period) (k : ℕ) :
    0 ≤ rsiValRow period p k ∧ rsiValRow period p k ≤ 100 := by
  have hg : 0 ≤ wilderAvg period (gainRow p) k :=
    wilderAvg_nonneg period _ hp (fun j => le_max_right _ _) k
  have hl : 0 ≤ wilderAvg period (lossRow p) k :=
    wilderAvg_nonneg period _ hp (fun j => le_max_right _ _) k
  have heps : (0 : ℚ) < epsRSI := by norm_num [epsRSI]
  have hrs : 0 ≤ wilderAvg period (gainRow p) k / (wilderAvg period (lossRow p) k + epsRSI) :=
    div_nonneg hg (by linarith)
  unfold rsiValRow
  constructor
  · have hle : 100 / (1 + wilderAvg period (gainRow p) k /
        (wilderAvg period (lossRow p) k + epsRSI)) ≤ 100 :=
      div_le_self (by norm_num) (by linarith)
    linarith
  · have hpos : 0 < 100 / (1 + wilderAvg period (gainRow p) k /
        (wilderAvg period (lossRow p) k + epsRSI)) := by positivity
    linarith

/-- C2 counterexample: a constant price series (both columns 100, so
`T = 2 ≥ period + 1` with `period = 1`) yields RSI exactly `0` at the
first computed column, not `50`: the epsilon is added only to the
denominator, so `rs = 0 / (0 + 1e-10) = 0` and `100 - 100/(1+0) = 0`. -/
theorem rsi_constant_not_fifty :
    rsi_batch 2 1 (fun _ _ => (100 : ℚ)) =
      Except.ok (fun r => rsiOutRow 2 1 (fun _ => (100 : ℚ))) ∧
    rsiOutRow 2 1 (fun _ => (100 : ℚ)) 1 = some 0 ∧ some (0 : ℚ) ≠ some (50 : ℚ) := by
  refine ⟨?_, ?_, by norm_num⟩
  · unfold rsi_batch
    rw [if_neg (by omega)]
  · unfold rsiOutRow
    rw [if_pos (by omega)]
    norm_num [rsiValRow, wilderAvg, gainRow, lossRow, diffRow, epsRSI]

/-- C2 (amended): for every constant price series with `T ≥ period + 1`
and `period ≥ 1`, the RSI kernel returns exactly `0` (not `50`) at every
column index in `[period, T)`: gains and losses are all zero, and the
epsilon-guarded ratio is `0 / (0 + 1e-10) = 0`, giving
`100 - 100/(1+0) = 0`. -/
theorem rsi_constant_series_zero (T period : ℕ) (c : ℚ) (price : ℕ → ℕ → ℚ)
    (hconst : ∀ r j, price r j = c) (hp : 1 ≤ period) (hT : period + 1 ≤ T)
    (out : ℕ → ℕ → Option ℚ) (h : rsi_batch T period price = Except.ok out)
    (r i : ℕ) (h1 : period ≤ i) (h2 : i < T) :
    out r i = some 0 := by
  have hout := rsi_batch_ok T period price out h
  subst hout
  simp only [rsiOutRow]
  rw [if_pos ⟨by omega, h1, h2⟩]
  have hg : ∀ j, gainRow (price r) j = 0 := fun j => by
    simp [gainRow, diffRow, hconst]
  have hl : ∀ j, lossRow (price r) j = 0 := fun j => by
    simp [lossRow, diffRow, hconst]
  rw [rsiValRow, wilderAvg_eq_zero period _ hg, wilderAvg_eq_zero period _ hl]
  norm_num [epsRSI]

/-- C2 witness: the amended statement instantiated on the concrete
constant matrix of the counterexample. -/
theorem rsi_constant_series_zero_witness :
    ((∀ r j : ℕ, (fun _ _ => (100 : ℚ)) r j = (100 : ℚ)) ∧ 1 ≤ 1 ∧ 1 + 1 ≤ 2 ∧
      rsi_batch 2 1 (fun _ _ => (100 : ℚ)) =
        Except.ok (fun r => rsiOutRow 2 1 (fun _ => (100 : ℚ)))) ∧
    (fun r => rsiOutRow 2 1 (fun _ => (100 : ℚ))) 0 1 = some 0 := by
  refine ⟨⟨fun _ _ => rfl, by omega, by omega, ?_⟩, ?_⟩
  · unfold rsi_batch
    rw [if_neg (by omega)]
  · exact rsi_constant_series_zero 2 1 100 (fun _ _ => (100 : ℚ)) (fun _ _ => rfl)
      (by omega) (by omega) _ (by unfold rsi_batch; rw [if_neg (by omega)]) 0 1
      (by omega) (by omega)

/-- C3: whenever `rsi_batch` returns a matrix (it raises at `T = period`,
see C1), every cell in a column `< period` is the sentinel, and every
cell in a column `≥ period` that exists (`< T`) holds a value in
`[0,100]`. -/
theorem rsi_warmup_sentinel_and_range (T period : ℕ) (price : ℕ → ℕ → ℚ)
    (hp : 1 ≤ period) (out : ℕ → ℕ → Option ℚ)
    (h : rsi_batch T period price = Except.ok out) (r i : ℕ) :
    (i < period → out r i = none) ∧
    (period ≤ i → i < T → ∃ q, out r i = some q ∧ 0 ≤ q ∧ q ≤ 100) := by
  have hout := rsi_batch_ok T period price out h
  subst hout
  constructor
  · intro hi
    simp only [rsiOutRow]
    rw [if_neg (by omega)]
  · intro h1 h2
    refine ⟨rsiValRow period (price r) (i - period), ?_,
      (rsiValRow_mem period (price r) hp (i - period)).1,
      (rsiValRow_mem period (price r) hp (i - period)).2⟩
    simp only [rsiOutRow]
    rw [if_pos ⟨by omega, h1, h2⟩]

/-- C3 witness: the sentinel/range dichotomy at a concrete call
(`T = 3`, `period = 1`, prices `5`), cell `(0, 1)`. -/
theorem rsi_warmup_sentinel_and_range_witness :
    (1 ≤ 1 ∧ rsi_batch 3 1 (fun _ _ => (5 : ℚ)) =
      Except.ok (fun r => rsiOutRow 3 1 (fun _ => (5 : ℚ)))) ∧
    ((1 < 1 → (fun r => rsiOutRow 3 1 (fun _ => (5 : ℚ))) 0 1 = none) ∧
     (1 ≤ 1 → 1 < 3 → ∃ q, (fun r => rsiOutRow 3 1 (fun _ => (5 : ℚ))) 0 1 = some q ∧
        0 ≤ q ∧ q ≤ 100)) := by
  refine ⟨⟨by omega, ?_⟩, ?_⟩
  · unfold rsi_batch
    rw [if_neg (by omega)]
  · exact rsi_warmup_sentinel_and_range 3 1 (fun _ _ => (5 : ℚ)) (by omega) _
      (by unfold rsi_batch; rw [if_neg (by omega)]) 0 1

/-- Reference-side RSI state from the spec's own wording: the pair
`(avgGain, avgLoss)` seeded at column `period` with the simple means of
the positive and negative parts of the first `period` first-differences,
then updated by Wilder smoothing with `alpha = 1/period` using the
difference just before each column.  Entry `k` is the state used for
output column `period + k`. -/
def refAvgs (period : ℕ) (p : ℕ → ℚ) : ℕ → ℚ × ℚ
  | 0 =>
      ((∑ j ∈ Finset.range period, max (p (j + 1) - p j) 0) / (period : ℚ),
       (∑ j ∈ Finset.range period, max (-(p (j + 1) - p j)) 0) / (period : ℚ))
  | k + 1 =>
      ((1 / (period : ℚ)) * max (p (period + k + 1) - p (period + k)) 0
         + (1 - 1 / (period : ℚ)) * (refAvgs period p k).1,
       (1 / (period : ℚ)) * max (-(p (period + k + 1) - p (period + k))) 0
         + (1 - 1 / (period : ℚ)) * (refAvgs period p k).2)

/-- The kernel's running averages coincide with the reference state. -/
theorem refAvgs_eq (period : ℕ) (p : ℕ → ℚ) (k : ℕ) :
    refAvgs period p k = (wilderAvg period (gainRow p) k, wilderAvg period (lossRow p) k) := by
  induction k with
  | zero => simp [refAvgs, wilderAvg, gainRow, lossRow, diffRow]
  | succ k ih => simp [refAvgs, wilderAvg, gainRow, lossRow, diffRow, ih]

/-- C4: on any successful call with `T ≥ period + 1`, every computed RSI
cell equals the reference definition: `100 - 100/(1+rs)` where `rs` is
the ratio of the reference running averages (seeded by simple means of
the first `period` gains/losses and advanced by Wilder smoothing) with
the `1e-10` epsilon in the denominator. -/
theorem rsi_matches_reference (T period : ℕ) (price : ℕ → ℕ → ℚ)
    (hT : period + 1 ≤ T) (out : ℕ → ℕ → Option ℚ)
    (h : rsi_batch T period price = Except.ok out) (r i : ℕ)
    (h1 : period ≤ i) (h2 : i < T) :
    out r i = some (100 - 100 / (1 +
      (refAvgs period (price r) (i - period)).1 /
        ((refAvgs period (price r) (i - period)).2 + epsRSI))) := by
  have hout := rsi_batch_ok T period price out h
  subst hout
  simp only [rsiOutRow]
  rw [if_pos ⟨by omega, h1, h2⟩, refAvgs_eq]
  rfl

/-- C4 witness: the reference equality at a concrete call (`T = 2`,
`period = 1`, prices `3`), cell `(0, 1)`. -/
theorem rsi_matches_reference_witness :
    (1 + 1 ≤ 2 ∧ rsi_batch 2 1 (fun _ _ => (3 : ℚ)) =
      Except.ok (fun r => rsiOutRow 2 1 (fun _ => (3 : ℚ))) ∧ 1 ≤ 1 ∧ 1 < 2) ∧
    (fun r => rsiOutRow 2 1 (fun _ => (3 : ℚ))) 0 1 = some (100 - 100 / (1 +
      (refAvgs 1 (fun _ => (3 : ℚ)) (1 - 1)).1 /
        ((refAvgs 1 (fun _ => (3 : ℚ)) (1 - 1)).2 + epsRSI))) := by
  refine ⟨⟨by omega, ?_, by omega, by omega⟩, ?_⟩
  · unfold rsi_batch
    rw [if_neg (by omega)]
  · exact rsi_matches_reference 2 1 (fun _ _ => (3 : ℚ)) (by omega) _
      (by unfold rsi_batch; rw [if_neg (by omega)]) 0 1 (by omega) (by omega)

/-- Trailing-window mean used by `bollinger_bands_batch`:
`cp.mean(prices_gpu[:, i-period+1:i+1], axis=1)` for one row.  The
window has the `w` columns `i+1-w, ..., i`; the mean of rationals is
rational, so it stays in `ℚ`. -/
def windowMean (w : ℕ) (p : ℕ → ℚ) (i : ℕ) : ℚ :=
  (∑ j ∈ Finset.range w, p (i + 1 - w + j)) / (w : ℚ)

/-- Trailing-window population standard deviation,
`cp.std(window_data, axis=1)` for one row: the square root of the mean
squared deviation from the window mean.  The square root forces `ℝ`. -/
noncomputable def windowStd (w : ℕ) (p : ℕ → ℚ) (i : ℕ) : ℝ :=
  Real.sqrt ((∑ j ∈ Finset.range w, ((p (i + 1 - w + j) : ℝ) - (windowMean w p i : ℝ)) ^ 2) /
    (w : ℝ))

/-- Upper Bollinger band: sentinel-initialised, the loop over
`i ∈ [period-1, T)` writes `ma + std_multiplier * std`.  (`w - 1` is
Nat subtraction; it coincides with the source's `period - 1` for the
assumed `period ≥ 1`.) -/
noncomputable def upper_band (T w : ℕ) (m : ℝ) (price : ℕ → ℕ → ℚ) (r i : ℕ) : Option ℝ :=
  if w - 1 ≤ i ∧ i < T then
    some ((windowMean w (price r) i : ℝ) + m * windowStd w (price r) i)
  else none

/-- Middle Bollinger band: the window mean at the written columns,
sentinel elsewhere. -/
def middle_band (T w : ℕ) (price : ℕ → ℕ → ℚ) (r i : ℕ) : Option ℚ :=
  if w - 1 ≤ i ∧ i < T then some (windowMean w (price r) i) else none

/-- Lower Bollinger band: `ma - std_multiplier * std` at the written
columns, sentinel elsewhere. -/
noncomputable def lower_band (T w : ℕ) (m : ℝ) (price : ℕ → ℕ → ℚ) (r i : ℕ) : Option ℝ :=
  if w - 1 ≤ i ∧ i < T then
    some ((windowMean w (price r) i : ℝ) - m * windowStd w (price r) i)
  else none

/-- The `bollinger_bands_batch` kernel: the `(upper, middle, lower)`
triple.  No index written by the loop is out of bounds, so (unlike
`rsi_batch`) no exception arises for `period ≥ 1`. -/
noncomputable def bollinger_bands_batch (T w : ℕ) (m : ℝ) (price : ℕ → ℕ → ℚ) :
    (ℕ → ℕ → Option ℝ) × (ℕ → ℕ → Option ℚ) × (ℕ → ℕ → Option ℝ) :=
  (upper_band T w m price, middle_band T w price, lower_band T w m price)

/-- C5: at every written column the middle band is the arithmetic mean
of the trailing `w`-window, and the bands are symmetric about it with
offset exactly `std_multiplier * std` of that window. -/
theorem bollinger_middle_mean_band_symmetry (T w : ℕ) (m : ℝ) (price : ℕ → ℕ → ℚ)
    (r i : ℕ) (hw : 1 ≤ w) (h1 : w - 1 ≤ i) (h2 : i < T) :
    (bollinger_bands_batch T w m price).2.1 r i =
      some ((∑ j ∈ Finset.range w, price r (i + 1 - w + j)) / (w : ℚ)) ∧
    ∃ u low, (bollinger_bands_batch T w m price).1 r i = some u ∧
      (bollinger_bands_batch T w m price).2.2 r i = some low ∧
      u - (windowMean w (price r) i : ℝ) = m * windowStd w (price r) i ∧
      (windowMean w (price r) i : ℝ) - low = m * windowStd w (price r) i := by
  refine ⟨?_, (windowMean w (price r) i : ℝ) + m * windowStd w (price r) i,
    (windowMean w (price r) i : ℝ) - m * windowStd w (price r) i, ?_, ?_, by ring, by ring⟩
  · show middle_band T w price r i = _
    unfold middle_band windowMean
    rw [if_pos ⟨h1, h2⟩]
  · show upper_band T w m price r i = _
    unfold upper_band
    rw [if_pos ⟨h1, h2⟩]
  · show lower_band T w m price r i = _
    unfold lower_band
    rw [if_pos ⟨h1, h2⟩]

/-- C5 witness: the band relations at a concrete call (`T = 1`, `w = 1`,
multiplier `2`, prices `4`), cell `(0, 0)`. -/
theorem bollinger_middle_mean_band_symmetry_witness :
    (1 ≤ 1 ∧ 1 - 1 ≤ 0 ∧ 0 < 1) ∧
    ((bollinger_bands_batch 1 1 (2 : ℝ) (fun _ _ => (4 : ℚ))).2.1 0 0 =
      some ((∑ j ∈ Finset.range 1, (fun _ _ => (4 : ℚ)) 0 (0 + 1 - 1 + j)) / (1 : ℚ)) ∧
     ∃ u low, (bollinger_bands_batch 1 1 (2 : ℝ) (fun _ _ => (4 : ℚ))).1 0 0 = some u ∧
       (bollinger_bands_batch 1 1 (2 : ℝ) (fun _ _ => (4 : ℚ))).2.2 0 0 = some low ∧
       u - (windowMean 1 ((fun _ _ => (4 : ℚ)) 0) 0 : ℝ) =
         2 * windowStd 1 ((fun _ _ => (4 : ℚ)) 0) 0 ∧
       (windowMean 1 ((fun _ _ => (4 : ℚ)) 0) 0 : ℝ) - low =
         2 * windowStd 1 ((fun _ _ => (4 : ℚ)) 0) 0) :=
  ⟨⟨by omega, by omega, by omega⟩,
   bollinger_middle_mean_band_symmetry 1 1 2 (fun _ _ => (4 : ℚ)) 0 0
     (by omega) (by omega) (by omega)⟩

/-- C9: for every `period ≥ 1` all three Bollinger outputs are sentinel
at every column `< period - 1`, and for `T < period` they are entirely
sentinel (the loop `range(period-1, T)` is empty). -/
theorem bollinger_warmup_sentinel (T w : ℕ) (m : ℝ) (price : ℕ → ℕ → ℚ) (hw : 1 ≤ w) :
    (∀ r i, i < w - 1 →
       (bollinger_bands_batch T w m price).1 r i = none ∧
       (bollinger_bands_batch T w m price).2.1 r i = none ∧
       (bollinger_bands_batch T w m price).2.2 r i = none) ∧
    (T < w → ∀ r i,
       (bollinger_bands_batch T w m price).1 r i = none ∧
       (bollinger_bands_batch T w m price).2.1 r i = none ∧
       (bollinger_bands_batch T w m price).2.2 r i = none) := by
  constructor
  · intro r i hi
    refine ⟨?_, ?_, ?_⟩
    · show upper_band T w m price r i = none
      unfold upper_band
      rw [if_neg (by omega)]
    · show middle_band T w price r i = none
      unfold middle_band
      rw [if_neg (by omega)]
    · show lower_band T w m price r i = none
      unfold lower_band
      rw [if_neg (by omega)]
  · intro hT r i
    refine ⟨?_, ?_, ?_⟩
    · show upper_band T w m price r i = none
      unfold upper_band
      rw [if_neg (by omega)]
    · show middle_band T w price r i = none
      unfold middle_band
      rw [if_neg (by omega)]
    · show lower_band T w m price r i = none
      unfold lower_band
      rw [if_neg (by omega)]

/-- C9 witness: the sentinel facts at a concrete call (`w = 2`, `T = 1`,
so `T < w`), cells `(0, 0)`. -/
theorem bollinger_warmup_sentinel_witness :
    1 ≤ 2 ∧
    ((∀ r i, i < 2 - 1 →
       (bollinger_bands_batch 1 2 (0 : ℝ) (fun _ _ => (9 : ℚ))).1 r i = none ∧
       (bollinger_bands_batch 1 2 (0 : ℝ) (fun _ _ => (9 : ℚ))).2.1 r i = none ∧
       (bollinger_bands_batch 1 2 (0 : ℝ) (fun _ _ => (9 : ℚ))).2.2 r i = none) ∧
     (1 < 2 → ∀ r i,
       (bollinger_bands_batch 1 2 (0 : ℝ) (fun _ _ => (9 : ℚ))).1 r i = none ∧
       (bollinger_bands_batch 1 2 (0 : ℝ) (fun _ _ => (9 : ℚ))).2.1 r i = none ∧
       (bollinger_bands_batch 1 2 (0 : ℝ) (fun _ _ => (9 : ℚ))).2.2 r i = none)) :=
  ⟨by omega, bollinger_warmup_sentinel 1 2 0 (fun _ _ => (9 : ℚ)) (by omega)⟩

/-- One row of `_ema_gpu`: `ema[:,0] = data[:,0]`, then
`ema[:,i] = alpha*data[:,i] + (1-alpha)*ema[:,i-1]` with
`alpha = 2/(period+1)`. -/
def emaRow (period : ℕ) (d : ℕ → ℚ) : ℕ → ℚ
  | 0 => d 0
  | i + 1 =>
      (2 / ((period : ℚ) + 1)) * d (i + 1) + (1 - 2 / ((period : ℚ) + 1)) * emaRow period d i

/-- The `_ema_gpu` kernel.  On a zero-column matrix the seed write
`ema[:, 0] = data[:, 0]` raises `IndexError`; otherwise every row is the
EMA recurrence. -/
def ema_gpu (T period : ℕ) (data : ℕ → ℕ → ℚ) : Except Unit (ℕ → ℕ → ℚ) :=
  if T = 0 then Except.error () else Except.ok fun r => emaRow period (data r)

/-- The `macd_batch` kernel:
`macd_line = fast_ema - slow_ema`, `signal_line = EMA(macd_line)`,
`histogram = macd_line - signal_line`.  The `T = 0` error surfaces from
the first `_ema_gpu` call. -/
def macd_batch (T fast slow signal : ℕ) (price : ℕ → ℕ → ℚ) :
    Except Unit ((ℕ → ℕ → ℚ) × (ℕ → ℕ → ℚ) × (ℕ → ℕ → ℚ)) :=
  if T = 0 then Except.error ()
  else
    let macd_line : ℕ → ℕ → ℚ := fun r i => emaRow fast (price r) i - emaRow slow (price r) i
    let signal_line : ℕ → ℕ → ℚ := fun r => emaRow signal (macd_line r)
    let histogram : ℕ → ℕ → ℚ := fun r i => macd_line r i - signal_line r i
    Except.ok (macd_line, signal_line, histogram)

/-- Inversion of a successful `ema_gpu` call. -/
theorem ema_gpu_ok (T period : ℕ) (data : ℕ → ℕ → ℚ) (out : ℕ → ℕ → ℚ)
    (h : ema_gpu T period data = Except.ok out) :
    out = fun r => emaRow period (data r) := by
  unfold ema_gpu at h
  split at h
  · exact Except.noConfusion h
  · exact (Except.ok.inj h).symm

/-- Inversion of a successful `macd_batch` call. -/
theorem macd_batch_ok (T fast slow signal : ℕ) (price : ℕ → ℕ → ℚ)
    (out : (ℕ → ℕ → ℚ) × (ℕ → ℕ → ℚ) × (ℕ → ℕ → ℚ))
    (h : macd_batch T fast slow signal price = Except.ok out) :
    out = (fun r i => emaRow fast (price r) i - emaRow slow (price r) i,
           fun r => emaRow signal (fun j => emaRow fast (price r) j - emaRow slow (price r) j),
           fun r i => (emaRow fast (price r) i - emaRow slow (price r) i) -
             emaRow signal (fun j => emaRow fast (price r) j - emaRow slow (price r) j) i) := by
  unfold macd_batch at h
  split at h
  · exact Except.noConfusion h
  · exact (Except.ok.inj h).symm

/-- C6: every successful MACD call is exactly the reference composition:
the MACD line is `EMA(prices, fast) - EMA(prices, slow)` (seed-with-first-
column EMA), the signal line is `EMA(macd_line, signal)`, and the
returned histogram is `macd_line - signal_line` at every cell. -/
theorem macd_composition (T fast slow signal : ℕ) (price : ℕ → ℕ → ℚ)
    (out : (ℕ → ℕ → ℚ) × (ℕ → ℕ → ℚ) × (ℕ → ℕ → ℚ))
    (h : macd_batch T fast slow signal price = Except.ok out) (r i : ℕ) :
    out.2.2 r i = out.1 r i - out.2.1 r i ∧
    out.1 r i = emaRow fast (price r) i - emaRow slow (price r) i ∧
    out.2.1 r i =
      emaRow signal (fun j => emaRow fast (price r) j - emaRow slow (price r) j) i := by
  have hout := macd_batch_ok T fast slow signal price out h
  subst hout
  exact ⟨rfl, rfl, rfl⟩

/-- C6 witness: the composition at a concrete call (`T = 1`, periods
`12/26/9`, prices `2`), cell `(0, 0)`. -/
theorem macd_composition_witness :
    macd_batch 1 12 26 9 (fun _ _ => (2 : ℚ)) =
      Except.ok (fun r i => emaRow 12 ((fun _ _ => (2 : ℚ)) r) i -
          emaRow 26 ((fun _ _ => (2 : ℚ)) r) i,
        fun r => emaRow 9 (fun j => emaRow 12 ((fun _ _ => (2 : ℚ)) r) j -
          emaRow 26 ((fun _ _ => (2 : ℚ)) r) j),
        fun r i => (emaRow 12 ((fun _ _ => (2 : ℚ)) r) i -
            emaRow 26 ((fun _ _ => (2 : ℚ)) r) i) -
          emaRow 9 (fun j => emaRow 12 ((fun _ _ => (2 : ℚ)) r) j -
            emaRow 26 ((fun _ _ => (2 : ℚ)) r) j) i) ∧
    ((fun r i => (emaRow 12 ((fun _ _ => (2 : ℚ)) r) i -
          emaRow 26 ((fun _ _ => (2 : ℚ)) r) i) -
        emaRow 9 (fun j => emaRow 12 ((fun _ _ => (2 : ℚ)) r) j -
          emaRow 26 ((fun _ _ => (2 : ℚ)) r) j) i) 0 0 =
      (fun r i => emaRow 12 ((fun _ _ => (2 : ℚ)) r) i -
          emaRow 26 ((fun _ _ => (2 : ℚ)) r) i) 0 0 -
      (fun r => emaRow 9 (fun j => emaRow 12 ((fun _ _ => (2 : ℚ)) r) j -
          emaRow 26 ((fun _ _ => (2 : ℚ)) r) j)) 0 0) := by
  constructor
  · unfold macd_batch
    rw [if_neg (by omega)]
  · exact (macd_composition 1 12 26 9 (fun _ _ => (2 : ℚ)) _
      (by unfold macd_batch; rw [if_neg (by omega)]) 0 0).1

/-- C8: with `period = 1` the EMA weight is `alpha = 2/(1+1) = 1`, so a
successful `_ema_gpu` call is the identity on its input, including
column `0` via the seed rule. -/
theorem ema_period_one_identity (T : ℕ) (data : ℕ → ℕ → ℚ) (out : ℕ → ℕ → ℚ)
    (h : ema_gpu T 1 data = Except.ok out) (r i : ℕ) : out r i = data r i := by
  have hout := ema_gpu_ok T 1 data out h
  subst hout
  show emaRow 1 (data r) i = data r i
  induction i with
  | zero => rfl
  | succ i ih =>
      unfold emaRow
      rw [ih]
      norm_num

/-- C8 witness: the identity at a concrete call (`T = 2`, prices `7`),
cell `(0, 1)`. -/
theorem ema_period_one_identity_witness :
    ema_gpu 2 1 (fun _ _ => (7 : ℚ)) = Except.ok (fun r => emaRow 1 ((fun _ _ => (7 : ℚ)) r)) ∧
    (fun r => emaRow 1 ((fun _ _ => (7 : ℚ)) r)) 0 1 = (fun _ _ => (7 : ℚ)) 0 1 := by
  constructor
  · unfold ema_gpu
    rw [if_neg (by omega)]
  · exact ema_period_one_identity 2 (fun _ _ => (7 : ℚ)) _
      (by unfold ema_gpu; rw [if_neg (by omega)]) 0 1

/-- The EMA recurrence at column `i` reads the data only at columns
`0..i`. -/
theorem emaRow_congr (period : ℕ) (d1 d2 : ℕ → ℚ) (i : ℕ)
    (h : ∀ j, j ≤ i → d1 j = d2 j) : emaRow period d1 i = emaRow period d2 i := by
  induction i with
  | zero => exact h 0 le_rfl
  | succ i ih =>
      unfold emaRow
      rw [h (i + 1) le_rfl, ih fun j hj => h j (le_trans hj (Nat.le_succ i))]

/-- The Wilder running average number `k` reads its series only at
indices `< period + k`. -/
theorem wilderAvg_congr (period : ℕ) (x1 x2 : ℕ → ℚ) (k : ℕ)
    (h : ∀ j, j < period + k → x1 j = x2 j) :
    wilderAvg period x1 k = wilderAvg period x2 k := by
  induction k with
  | zero =>
      unfold wilderAvg
      congr 1
      exact Finset.sum_congr rfl fun j hj => h j (by
        have := Finset.mem_range.mp hj
        omega)
  | succ k ih =>
      unfold wilderAvg
      rw [h (period + k) (by omega), ih fun j hj => h j (by omega)]

/-- An RSI output cell at column `i` reads the prices only at columns
`0..i`. -/
theorem rsiOutRow_congr (T period : ℕ) (p1 p2 : ℕ → ℚ) (i : ℕ)
    (h : ∀ j, j ≤ i → p1 j = p2 j) :
    rsiOutRow T period p1 i = rsiOutRow T period p2 i := by
  unfold rsiOutRow
  split
  case isTrue hc =>
    have hg : ∀ j, j < period + (i - period) → gainRow p1 j = gainRow p2 j := by
      intro j hj
      unfold gainRow diffRow
      rw [h j (by omega), h (j + 1) (by omega)]
    have hl : ∀ j, j < period + (i - period) → lossRow p1 j = lossRow p2 j := by
      intro j hj
      unfold lossRow diffRow
      rw [h j (by omega), h (j + 1) (by omega)]
    unfold rsiValRow
    rw [wilderAvg_congr period _ _ _ hg, wilderAvg_congr period _ _ _ hl]
  case isFalse => rfl

/-- A window mean at column `i` reads the prices only at columns
`0..i` (the window indices `i+1-w+j`, `j < w`, are all `≤ i`). -/
theorem windowMean_congr (w : ℕ) (p1 p2 : ℕ → ℚ) (i : ℕ) (hw : w ≤ i + 1)
    (h : ∀ j, j ≤ i → p1 j = p2 j) : windowMean w p1 i = windowMean w p2 i := by
  unfold windowMean
  congr 1
  refine Finset.sum_congr rfl fun j hj => h _ ?_
  have := Finset.mem_range.mp hj
  omega

/-- A window standard deviation at column `i` reads the prices only at
columns `0..i`. -/
theorem windowStd_congr (w : ℕ) (p1 p2 : ℕ → ℚ) (i : ℕ) (hw : w ≤ i + 1)
    (h : ∀ j, j ≤ i → p1 j = p2 j) : windowStd w p1 i = windowStd w p2 i := by
  unfold windowStd
  rw [windowMean_congr w p1 p2 i hw h]
  congr 2
  refine Finset.sum_congr rfl fun j hj => ?_
  rw [h _ (by
    have := Finset.mem_range.mp hj
    omega)]

/-- C7 (no lookahead, row isolation): for each kernel, the output cell
at row `r`, column `i` is a function of the input prices of row `r` at
columns `0..i` only — two inputs that agree there produce the same cell,
whatever their later columns or other rows hold. -/
theorem no_lookahead_row_isolation (T period w fast slow signal : ℕ) (m : ℝ)
    (price1 price2 : ℕ → ℕ → ℚ) (r i : ℕ)
    (hagree : ∀ j, j ≤ i → price1 r j = price2 r j) :
    (∀ out1 out2, rsi_batch T period price1 = Except.ok out1 →
       rsi_batch T period price2 = Except.ok out2 → out1 r i = out2 r i) ∧
    ((bollinger_bands_batch T w m price1).1 r i = (bollinger_bands_batch T w m price2).1 r i ∧
     (bollinger_bands_batch T w m price1).2.1 r i =
       (bollinger_bands_batch T w m price2).2.1 r i ∧
     (bollinger_bands_batch T w m price1).2.2 r i =
       (bollinger_bands_batch T w m price2).2.2 r i) ∧
    (∀ out1 out2, ema_gpu T period price1 = Except.ok out1 →
       ema_gpu T period price2 = Except.ok out2 → out1 r i = out2 r i) ∧
    (∀ out1 out2, macd_batch T fast slow signal price1 = Except.ok out1 →
       macd_batch T fast slow signal price2 = Except.ok out2 →
       out1.1 r i = out2.1 r i ∧ out1.2.1 r i = out2.2.1 r i ∧
       out1.2.2 r i = out2.2.2 r i) := by
  have hml : ∀ j, j ≤ i →
      emaRow fast (price1 r) j - emaRow slow (price1 r) j =
      emaRow fast (price2 r) j - emaRow slow (price2 r) j := by
    intro j hj
    rw [emaRow_congr fast _ _ j fun u hu => hagree u (le_trans hu hj),
      emaRow_congr slow _ _ j fun u hu => hagree u (le_trans hu hj)]
  refine ⟨?_, ⟨?_, ?_, ?_⟩, ?_, ?_⟩
  · intro out1 out2 h1 h2
    have e1 := rsi_batch_ok T period price1 out1 h1
    have e2 := rsi_batch_ok T period price2 out2 h2
    subst e1
    subst e2
    exact rsiOutRow_congr T period _ _ i hagree
  · show upper_band T w m price1 r i = upper_band T w m price2 r i
    unfold upper_band
    split
    case isTrue hc =>
      rw [windowMean_congr w _ _ i (by omega) hagree, windowStd_congr w _ _ i (by omega) hagree]
    case isFalse => rfl
  · show middle_band T w price1 r i = middle_band T w price2 r i
    unfold middle_band
    split
    case isTrue hc =>
      rw [windowMean_congr w _ _ i (by omega) hagree]
    case isFalse => rfl
  · show lower_band T w m price1 r i = lower_band T w m price2 r i
    unfold lower_band
    split
    case isTrue hc =>
      rw [windowMean_congr w _ _ i (by omega) hagree, windowStd_congr w _ _ i (by omega) hagree]
    case isFalse => rfl
  · intro out1 out2 h1 h2
    have e1 := ema_gpu_ok T period price1 out1 h1
    have e2 := ema_gpu_ok T period price2 out2 h2
    subst e1
    subst e2
    exact emaRow_congr period _ _ i hagree
  · intro out1 out2 h1 h2
    have e1 := macd_batch_ok T fast slow signal price1 out1 h1
    have e2 := macd_batch_ok T fast slow signal price2 out2 h2
    subst e1
    subst e2
    refine ⟨hml i le_rfl, ?_, ?_⟩
    · exact emaRow_congr signal _ _ i hml
    · show (emaRow fast (price1 r) i - emaRow slow (price1 r) i) - _ =
        (emaRow fast (price2 r) i - emaRow slow (price2 r) i) - _
      rw [hml i le_rfl, emaRow_congr signal _ _ i hml]

/-- C7 witness: two matrices that agree on row `0` up to column `1` but
differ on row `1`, instantiated at `T = 3`, `period = 1`, `w = 1`,
MACD periods `1/1/1`, multiplier `2`, cell `(0, 1)`. -/
theorem no_lookahead_row_isolation_witness :
    (∀ j : ℕ, j ≤ 1 → (fun _ _ => (6 : ℚ)) 0 j =
      (fun r _ => if r = 0 then (6 : ℚ) else 8) 0 j) ∧
    ((∀ out1 out2, rsi_batch 3 1 (fun _ _ => (6 : ℚ)) = Except.ok out1 →
       rsi_batch 3 1 (fun r _ => if r = 0 then (6 : ℚ) else 8) = Except.ok out2 →
       out1 0 1 = out2 0 1) ∧
     ((bollinger_bands_batch 3 1 (2 : ℝ) (fun _ _ => (6 : ℚ))).1 0 1 =
        (bollinger_bands_batch 3 1 (2 : ℝ) (fun r _ => if r = 0 then (6 : ℚ) else 8)).1 0 1 ∧
      (bollinger_bands_batch 3 1 (2 : ℝ) (fun _ _ => (6 : ℚ))).2.1 0 1 =
        (bollinger_bands_batch 3 1 (2 : ℝ)
          (fun r _ => if r = 0 then (6 : ℚ) else 8)).2.1 0 1 ∧
      (bollinger_bands_batch 3 1 (2 : ℝ) (fun _ _ => (6 : ℚ))).2.2 0 1 =
        (bollinger_bands_batch 3 1 (2 : ℝ)
          (fun r _ => if r = 0 then (6 : ℚ) else 8)).2.2 0 1) ∧
     (∀ out1 out2, ema_gpu 3 1 (fun _ _ => (6 : ℚ)) = Except.ok out1 →
       ema_gpu 3 1 (fun r _ => if r = 0 then (6 : ℚ) else 8) = Except.ok out2 →
       out1 0 1 = out2 0 1) ∧
     (∀ out1 out2, macd_batch 3 1 1 1 (fun _ _ => (6 : ℚ)) = Except.ok out1 →
       macd_batch 3 1 1 1 (fun r _ => if r = 0 then (6 : ℚ) else 8) = Except.ok out2 →
       out1.1 0 1 = out2.1 0 1 ∧ out1.2.1 0 1 = out2.2.1 0 1 ∧
       out1.2.2 0 1 = out2.2.2 0 1)) :=
  ⟨fun _ _ => by simp,
   no_lookahead_row_isolation 3 1 1 1 1 1 2 (fun _ _ => (6 : ℚ))
     (fun r _ => if r = 0 then (6 : ℚ) else 8) 0 1 (fun _ _ => by simp)⟩

/-- A host 2-D array as the public interface sees it: a shape and the
cell contents (`float32` idealised as `ℚ`). -/
structure NDArray where
  nrows : ℕ
  ncols : ℕ
  entry : ℕ → ℕ → ℚ

/-- The public `price_data` argument: either an array or a nested Python
list of rows. -/
inductive PriceData where
  | ndarray (a : NDArray)
  | pylist (rows : List (List ℚ))

/-- Conversion `np.array(price_data, dtype=np.float32)` of a nested list
of equal-length rows: shape from the list, row-major cells. -/
def np_array (L : List (List ℚ)) : NDArray :=
  ⟨L.length, (L.headD []).length, fun r c => (L.getD r []).getD c 0⟩

/-- Input normalisation shared by all three public kernels:
`if isinstance(price_data, list): price_data = np.array(...)` followed by
`cp.asarray(price_data, dtype=cp.float32)` (the latter is the identity
in this exact-arithmetic idealisation, for both input forms). -/
def cp_asarray (d : PriceData) : NDArray :=
  match d with
  | .ndarray a => a
  | .pylist L => np_array L

/-- Public `rsi_batch`: normalise the input, then run the kernel on the
resulting matrix. -/
def rsi_batch_public (d : PriceData) (period : ℕ) : Except Unit (ℕ → ℕ → Option ℚ) :=
  rsi_batch (cp_asarray d).ncols period (cp_asarray d).entry

/-- Public `bollinger_bands_batch`. -/
noncomputable def bollinger_bands_batch_public (d : PriceData) (w : ℕ) (m : ℝ) :
    (ℕ → ℕ → Option ℝ) × (ℕ → ℕ → Option ℚ) × (ℕ → ℕ → Option ℝ) :=
  bollinger_bands_batch (cp_asarray d).ncols w m (cp_asarray d).entry

/-- Public `macd_batch`. -/
def macd_batch_public (d : PriceData) (fast slow signal : ℕ) :
    Except Unit ((ℕ → ℕ → ℚ) × (ℕ → ℕ → ℚ) × (ℕ → ℕ → ℚ)) :=
  macd_batch (cp_asarray d).ncols fast slow signal (cp_asarray d).entry

/-- C10: for a nested list of equal-length rows, each public kernel
returns exactly what it returns on the equivalent 2-D array, because the
list is converted (`np.array`) to that array before any computation. -/
theorem list_input_equivalence (L : List (List ℚ)) (period w fast slow signal : ℕ) (m : ℝ)
    (hrect : ∀ row ∈ L, row.length = (L.headD []).length) :
    rsi_batch_public (.pylist L) period = rsi_batch_public (.ndarray (np_array L)) period ∧
    bollinger_bands_batch_public (.pylist L) w m =
      bollinger_bands_batch_public (.ndarray (np_array L)) w m ∧
    macd_batch_public (.pylist L) fast slow signal =
      macd_batch_public (.ndarray (np_array L)) fast slow signal :=
  ⟨rfl, rfl, rfl⟩

/-- C10 witness: the equivalence on the concrete rectangular list
`[[1, 2], [3, 4]]`. -/
theorem list_input_equivalence_witness :
    (∀ row ∈ [[(1 : ℚ), 2], [3, 4]], row.length = ([[(1 : ℚ), 2], [3, 4]].headD []).length) ∧
    (rsi_batch_public (.pylist [[(1 : ℚ), 2], [3, 4]]) 14 =
       rsi_batch_public (.ndarray (np_array [[(1 : ℚ), 2], [3, 4]])) 14 ∧
     bollinger_bands_batch_public (.pylist [[(1 : ℚ), 2], [3, 4]]) 20 (2 : ℝ) =
       bollinger_bands_batch_public (.ndarray (np_array [[(1 : ℚ), 2], [3, 4]])) 20 (2 : ℝ) ∧
     macd_batch_public (.pylist [[(1 : ℚ), 2], [3, 4]]) 12 26 9 =
       macd_batch_public (.ndarray (np_array [[(1 : ℚ), 2], [3, 4]])) 12 26 9) :=
  ⟨by decide, list_input_equivalence [[(1 : ℚ), 2], [3, 4]] 14 20 12 26 9 2 (by decide)⟩

end GPUIndicators
